import Mathlib

/-!
Shallow embedding of `src/storage/user.go` (package `routes` of
Rtarun3606k/fileSharingSYS): a Gin HTTP handler set over one MongoDB
collection, exposing list (GET /users/), create (POST /users/) and
partial update (PATCH /users/:id) of user documents.

The store (one `users` collection) is modelled as a list of documents,
a document as an association list of field name to BSON value, and each
handler as a pure function from the request data and the store state to
an HTTP response and the new store state.  Nondeterministic or external
inputs of a handler are extra parameters: the ObjectID produced by
`primitive.NewObjectID()` and an optional store-level (transport)
failure of the single database call the handler makes.
-/

/-- A JSON value, as bound from a request body (`c.BindJSON`) or produced in
a response (`c.JSON`).  JSON numbers are modelled as integers: no claim
depends on numeric semantics, only on value equality. -/
inductive Json where
  | null : Json
  | bool (b : Bool) : Json
  | num (n : Int) : Json
  | str (s : String) : Json
  | arr (xs : List Json) : Json
  | obj (fields : List (String × Json)) : Json

/-- A MongoDB ObjectID (`primitive.ObjectID`): 12 bytes, modelled by their
numeric value. -/
structure ObjectID where
  val : Nat
deriving DecidableEq

/-- A stored BSON value: the JSON values plus ObjectIDs (the `_id` field of a
stored document holds an ObjectID, which plain JSON cannot express). -/
inductive BVal where
  | null : BVal
  | bool (b : Bool) : BVal
  | num (n : Int) : BVal
  | str (s : String) : BVal
  | oid (i : ObjectID) : BVal
  | arr (xs : List BVal) : BVal
  | doc (fields : List (String × BVal)) : BVal

/-- A stored document (`bson.M`, or a marshalled `models.User`): an
association list of field name to BSON value. -/
abbrev Doc := List (String × BVal)

/-- The state of the `users` collection of the `Go_With` database. -/
structure DB where
  users : List Doc

/-- First value bound to a key in a document. -/
def lookupField : Doc → String → Option BVal
  | [], _ => none
  | (k, v) :: rest, key => if k = key then some v else lookupField rest key

/-- First value bound to a key in a JSON object's field list. -/
def lookupJson : List (String × Json) → String → Option Json
  | [], _ => none
  | (k, v) :: rest, key => if k = key then some v else lookupJson rest key

/-- Whether a JSON object's field list contains a key. -/
def hasKey (fields : List (String × Json)) (key : String) : Bool :=
  (lookupJson fields key).isSome

mutual
/-- A JSON value as it is stored by the driver (`bson.M` values from a
`map[string]interface{}` body keep their JSON shape). -/
def toBVal : Json → BVal
  | .null => .null
  | .bool b => .bool b
  | .num n => .num n
  | .str s => .str s
  | .arr xs => .arr (toBValList xs)
  | .obj fs => .doc (toBValFields fs)

def toBValList : List Json → List BVal
  | [] => []
  | x :: xs => toBVal x :: toBValList xs

def toBValFields : List (String × Json) → List (String × BVal)
  | [] => []
  | (k, v) :: fs => (k, toBVal v) :: toBValFields fs
end

/-- Hexadecimal digit test, as `primitive.ObjectIDFromHex` accepts
(via `hex.DecodeString`). -/
def isHexDigit (c : Char) : Bool :=
  (decide ('0' ≤ c) && decide (c ≤ '9')) ||
  (decide ('a' ≤ c) && decide (c ≤ 'f')) ||
  (decide ('A' ≤ c) && decide (c ≤ 'F'))

/-- Numeric value of a hexadecimal digit. -/
def hexDigitVal (c : Char) : Nat :=
  if decide ('0' ≤ c) && decide (c ≤ '9') then c.toNat - Char.toNat '0'
  else if decide ('a' ≤ c) && decide (c ≤ 'f') then c.toNat - Char.toNat 'a' + 10
  else c.toNat - Char.toNat 'A' + 10

/-- `primitive.ObjectIDFromHex`: a string parses as an ObjectID exactly when
it is 24 hexadecimal characters (12 bytes hex-encoded); otherwise the parse
fails. -/
def ObjectIDFromHex (s : String) : Option ObjectID :=
  if s.length == 24 && s.toList.all isHexDigit then
    some ⟨s.toList.foldl (fun a c => a * 16 + hexDigitVal c) 0⟩
  else
    none

/-- Hexadecimal rendering of an ObjectID (`primitive.ObjectID.Hex()`), as it
appears in JSON responses and listings: 24 lowercase hex characters. -/
def oidToHex (i : ObjectID) : String :=
  let digits := Nat.toDigits 16 i.val
  String.mk (List.replicate (24 - digits.length) '0' ++ digits)

mutual
/-- A stored BSON value as serialized into a JSON response body
(`c.JSON` on `bson.M` documents): ObjectIDs appear as hex strings. -/
def bvalToJson : BVal → Json
  | .null => .null
  | .bool b => .bool b
  | .num n => .num n
  | .str s => .str s
  | .oid i => .str (oidToHex i)
  | .arr xs => .arr (bvalListToJson xs)
  | .doc fs => .obj (bvalFieldsToJson fs)

def bvalListToJson : List BVal → List Json
  | [] => []
  | x :: xs => bvalToJson x :: bvalListToJson xs

def bvalFieldsToJson : List (String × BVal) → List (String × Json)
  | [] => []
  | (k, v) :: fs => (k, bvalToJson v) :: bvalFieldsToJson fs
end

/-- A stored document serialized into a JSON response. -/
def docToJson (d : Doc) : Json :=
  .obj (bvalFieldsToJson d)

/-- Modelled from the spec: the application-level user schema `models.User`
(package `GinFrameWork/Models`) is not among the sources; per the spec the
create body "must deserialize into the expected user shape", the identifier
is serialized as BSON `_id`, and the remaining fields are a fixed
application-level schema.  We model that schema as: the identifier `Id`, a
required string field `name`, and an optional string field `email`. -/
structure User where
  Id : ObjectID
  name : String
  email : Option String
deriving DecidableEq

/-- Modelled from the spec: `c.BindJSON(&user)` for the `models.User` shape.
The body must be a JSON object whose schema fields have the right types
(required `name`); a client-supplied `_id` hex string binds to `Id` (the
worst case for the identifier claims — the handler overrides it either way);
fields outside the schema are silently dropped, as Go's `json.Unmarshal`
into a struct drops unknown keys. -/
def bindUser (body : Json) : Except String User :=
  match body with
  | .obj fields =>
    let idv : ObjectID :=
      match lookupJson fields "_id" with
      | some (.str s) =>
        match ObjectIDFromHex s with
        | some i => i
        | none => ⟨0⟩
      | _ => ⟨0⟩
    match lookupJson fields "name" with
    | some (.str n) =>
      match lookupJson fields "email" with
      | some (.str e) => .ok ⟨idv, n, some e⟩
      | some _ => .error "json: cannot unmarshal value into field email of type string"
      | none => .ok ⟨idv, n, none⟩
    | some _ => .error "json: cannot unmarshal value into field name of type string"
    | none => .error "missing required structural field name"
  | _ => .error "json: cannot unmarshal value into value of type models.User"

/-- The BSON document a `models.User` value marshals to on `InsertOne`:
exactly the schema fields (an absent optional field is omitted), with the
identifier under `_id`. -/
def userToDoc (u : User) : Doc :=
  ("_id", .oid u.Id) :: ("name", .str u.name) ::
    (match u.email with
     | some e => [("email", .str e)]
     | none => [])

/-- An HTTP response: status code and JSON body. -/
structure Response where
  status : Nat
  body : Json

/-- The GET /users/ handler.  `findErr` models a store-level failure of the
one `collection.Find` call (none when the store is reachable).

Empty-collection case: the Go code declares `var users []bson.M` — a nil
slice — and `cursor.All` appends one element per document and finally
re-slices, so when the collection is empty the slice stays nil, and `c.JSON`
(Go's encoding/json) marshals a nil slice as JSON null, not as an empty
array.  With at least one document the slice is non-nil and marshals as a
JSON array of the documents in store order. -/
def GetUsers (db : DB) (findErr : Option String) : Response :=
  match findErr with
  | some m => ⟨500, .obj [("error", .str m)]⟩
  | none =>
    match db.users with
    | [] => ⟨200, Json.null⟩
    | d :: rest => ⟨200, .arr (docToJson d :: rest.map docToJson)⟩

/-- The POST /users/ handler.  `fresh` is the ObjectID produced by
`primitive.NewObjectID()`; `insertErr` models a store-level failure of the
one `collection.InsertOne` call.  The bound user's `Id` is overwritten with
`fresh` before the insert (`user.Id = primitive.NewObjectID()`), and on
success `result.InsertedID` — the `_id` the document was inserted with,
that is `fresh` — is returned with the success message. -/
def CreateUser (db : DB) (body : Json) (fresh : ObjectID) (insertErr : Option String) :
    Response × DB :=
  match bindUser body with
  | .error e => (⟨400, .obj [("error", .str e)]⟩, db)
  | .ok user =>
    let inserted : User := { user with Id := fresh }
    match insertErr with
    | some m => (⟨500, .obj [("error", .str m)]⟩, db)
    | none =>
      (⟨200, .obj [("insertedID", .str (oidToHex fresh)),
                   ("message", .str "User created successfully")]⟩,
       ⟨db.users ++ [userToDoc inserted]⟩)

/-- Whether a stored document matches the filter `bson.M{"_id": objId}`:
its `_id` field holds exactly that ObjectID (a document whose `_id` is not
an ObjectID never matches an ObjectID filter). -/
def docMatches (d : Doc) (target : ObjectID) : Bool :=
  match lookupField d "_id" with
  | some (.oid j) => j == target
  | _ => false

/-- Mongo `$set` of one field: replace the value in place if the key exists,
append the field otherwise. -/
def setField : Doc → String → BVal → Doc
  | [], k, v => [(k, v)]
  | (k', v') :: rest, k, v =>
    if k' = k then (k, v) :: rest else (k', v') :: setField rest k v

/-- Mongo `$set` of an update body: set exactly the fields present in the
body on the document, leaving every other field untouched. -/
def applySet (d : Doc) (fields : List (String × Json)) : Doc :=
  fields.foldl (fun acc kv => setField acc kv.1 (toBVal kv.2)) d

/-- `collection.UpdateOne(ctx, bson.M{"_id": objId}, bson.M{"$set": body})`
over the stored document list: the first document whose `_id` is the target
ObjectID gets exactly the body's fields set; without a match nothing changes
and no document is created (`UpdateOne` does not upsert).  Returns the
matched count with the new list.

The MongoDB server rejects with a write error any update that would alter
the immutable `_id` of the matched document.  A matched document's `_id` is
the target ObjectID, while a JSON update body can only carry a JSON value
(string, number, ...) for `_id`, never an ObjectID value, so a `$set` body
containing an `_id` key always alters the matched document's `_id` and is
always rejected. -/
def updateFirst (docs : List Doc) (target : ObjectID) (fields : List (String × Json)) :
    Except String (Nat × List Doc) :=
  match docs with
  | [] => .ok (0, [])
  | d :: rest =>
    if docMatches d target then
      if hasKey fields "_id" then
        .error "write exception: the immutable field _id was found to have been altered"
      else
        .ok (1, applySet d fields :: rest)
    else
      match updateFirst rest target fields with
      | .error e => .error e
      | .ok (n, rest') => .ok (n, d :: rest')

/-- The PATCH /users/:id handler.  `id` is the path parameter; `updateErr`
models a store-level (transport) failure of the one `collection.UpdateOne`
call.  In source order: parse the path identifier (400 "Invalid user ID" on
failure, before the body is read), bind the body as a generic field map —
any JSON object (400 with the bind error otherwise), run `UpdateOne`
(500 with the store's error on failure), 404 "User not found" when no
document matched, 200 with a success message otherwise. -/
def UpdateUser (db : DB) (id : String) (body : Json) (updateErr : Option String) :
    Response × DB :=
  match ObjectIDFromHex id with
  | none => (⟨400, .obj [("error", .str "Invalid user ID")]⟩, db)
  | some objId =>
    match body with
    | .obj updatedData =>
      match updateErr with
      | some m => (⟨500, .obj [("error", .str m)]⟩, db)
      | none =>
        match updateFirst db.users objId updatedData with
        | .error m => (⟨500, .obj [("error", .str m)]⟩, db)
        | .ok (matched, users') =>
          if matched == 0 then
            (⟨404, .obj [("message", .str "User not found")]⟩, ⟨users'⟩)
          else
            (⟨200, .obj [("message", .str "User updated successfully")]⟩, ⟨users'⟩)
    | _ => (⟨400, .obj [("error", .str "json: cannot unmarshal value into map of string to interface")]⟩, db)

/-- One request against the system: each operation the router exposes,
with its nondeterministic inputs (generated ObjectID, store failures). -/
inductive Op where
  | listOp (findErr : Option String) : Op
  | createOp (body : Json) (fresh : ObjectID) (insertErr : Option String) : Op
  | updateOp (id : String) (body : Json) (updateErr : Option String) : Op

/-- The store state after one request.  The list handler issues only a read,
so it leaves the store as is. -/
def applyOp (db : DB) : Op → DB
  | .listOp _ => db
  | .createOp body fresh insertErr => (CreateUser db body fresh insertErr).2
  | .updateOp id body updateErr => (UpdateUser db id body updateErr).2

/-- The store state after a sequence of requests. -/
def applyOps (db : DB) : List Op → DB
  | [] => db
  | op :: ops => applyOps (applyOp db op) ops

/-! Helper lemmas about field lookup and the merge operation. -/

theorem lookupField_setField_self (d : Doc) (k : String) (v : BVal) :
    lookupField (setField d k v) k = some v := by
  induction d with
  | nil => simp [setField, lookupField]
  | cons kv rest ih =>
    obtain ⟨k', v'⟩ := kv
    by_cases h : k' = k <;> simp [setField, lookupField, h, ih]

theorem lookupField_setField_ne (d : Doc) (k key : String) (v : BVal) (h : key ≠ k) :
    lookupField (setField d k v) key = lookupField d key := by
  induction d with
  | nil => simp [setField, lookupField, Ne.symm h]
  | cons kv rest ih =>
    obtain ⟨k', v'⟩ := kv
    by_cases h' : k' = k
    · subst h'
      simp [setField, lookupField, Ne.symm h]
    · simp only [setField, if_neg h', lookupField]
      by_cases h'' : k' = key <;> simp [h'', ih]

theorem lookupJson_eq_none_iff (fs : List (String × Json)) (k : String) :
    lookupJson fs k = none ↔ k ∉ fs.map Prod.fst := by
  induction fs with
  | nil => simp [lookupJson]
  | cons kv rest ih =>
    obtain ⟨k', v⟩ := kv
    by_cases h : k' = k
    · subst h
      simp [lookupJson]
    · have hne : k ≠ k' := fun e => h e.symm
      simp [lookupJson, h, ih, hne]

theorem lookupField_applySet_not_mem (fs : List (String × Json)) (d : Doc) (k : String)
    (h : lookupJson fs k = none) :
    lookupField (applySet d fs) k = lookupField d k := by
  induction fs generalizing d with
  | nil => simp [applySet]
  | cons kv rest ih =>
    obtain ⟨k1, v1⟩ := kv
    by_cases h1 : k1 = k
    · simp [lookupJson, h1] at h
    · simp only [lookupJson, if_neg h1] at h
      have : applySet d ((k1, v1) :: rest) = applySet (setField d k1 (toBVal v1)) rest := rfl
      rw [this, ih _ h, lookupField_setField_ne _ _ _ _ (fun e => h1 e.symm)]

theorem lookupField_applySet_mem (fs : List (String × Json)) (d : Doc) (k : String) (v : Json)
    (hnd : (fs.map Prod.fst).Nodup) (h : (k, v) ∈ fs) :
    lookupField (applySet d fs) k = some (toBVal v) := by
  induction fs generalizing d with
  | nil => cases h
  | cons kv rest ih =>
    obtain ⟨k1, v1⟩ := kv
    have hnd' : (k1 :: rest.map Prod.fst).Nodup := by simpa using hnd
    have hstep : applySet d ((k1, v1) :: rest) = applySet (setField d k1 (toBVal v1)) rest := rfl
    rcases List.mem_cons.mp h with heq | hmem
    · cases heq
      have hnotin : k ∉ rest.map Prod.fst := (List.nodup_cons.mp hnd').1
      rw [hstep, lookupField_applySet_not_mem _ _ _ ((lookupJson_eq_none_iff _ _).mpr hnotin),
        lookupField_setField_self]
    · rw [hstep]
      exact ih (setField d k1 (toBVal v1)) (List.nodup_cons.mp hnd').2 hmem

theorem hasKey_false_lookup (fs : List (String × Json)) (k : String)
    (h : hasKey fs k = false) : lookupJson fs k = none := by
  unfold hasKey at h
  exact Option.not_isSome_iff_eq_none.mp (by simp [h])

/-! Helper lemmas about `updateFirst`. -/

theorem updateFirst_no_match (docs : List Doc) (target : ObjectID)
    (fs : List (String × Json)) (h : ∀ d ∈ docs, docMatches d target = false) :
    updateFirst docs target fs = .ok (0, docs) := by
  induction docs with
  | nil => simp [updateFirst]
  | cons d rest ih =>
    have hd : docMatches d target = false := h d (by simp)
    have hrest := ih (fun d' hd' => h d' (by simp [hd']))
    simp [updateFirst, hd, hrest]

theorem updateFirst_id_preserved (docs : List Doc) (target : ObjectID)
    (fs : List (String × Json)) (n : Nat) (docs' : List Doc)
    (h : updateFirst docs target fs = .ok (n, docs')) (j : Nat) (d0 : Doc)
    (hj : docs[j]? = some d0) :
    ∃ d1, docs'[j]? = some d1 ∧ lookupField d1 "_id" = lookupField d0 "_id" := by
  induction docs generalizing j n docs' with
  | nil => simp at hj
  | cons d rest ih =>
    by_cases hm : docMatches d target = true
    · by_cases hk : hasKey fs "_id" = true
      · simp [updateFirst, hm, hk] at h
      · have hk' : hasKey fs "_id" = false := by simpa using hk
        have hu : updateFirst (d :: rest) target fs = .ok (1, applySet d fs :: rest) := by
          simp [updateFirst, hm, hk']
        rw [hu] at h
        injection h with h'
        injection h' with hn hd
        subst hd
        cases j with
        | zero =>
          obtain rfl : d = d0 := by simpa using hj
          exact ⟨applySet d fs, by simp,
            lookupField_applySet_not_mem _ _ _ (hasKey_false_lookup _ _ hk')⟩
        | succ j' =>
          simp only [List.getElem?_cons_succ] at hj ⊢
          exact ⟨d0, hj, rfl⟩
    · have hm' : docMatches d target = false := by simpa using hm
      cases hrec : updateFirst rest target fs with
      | error e =>
        have hu : updateFirst (d :: rest) target fs = .error e := by
          simp [updateFirst, hm', hrec]
        rw [hu] at h
        cases h
      | ok p =>
        obtain ⟨m, rest'⟩ := p
        have hu : updateFirst (d :: rest) target fs = .ok (m, d :: rest') := by
          simp [updateFirst, hm', hrec]
        rw [hu] at h
        injection h with h'
        injection h' with hn hd
        subst hd
        cases j with
        | zero =>
          obtain rfl : d = d0 := by simpa using hj
          exact ⟨d, by simp, rfl⟩
        | succ j' =>
          simp only [List.getElem?_cons_succ] at hj ⊢
          exact ih m rest' hrec j' hj

theorem updateFirst_match (docs : List Doc) (target : ObjectID) (fs : List (String × Json))
    (i : Nat) (d : Doc)
    (hi : docs[i]? = some d)
    (hmatch : docMatches d target = true)
    (hbefore : ∀ j d', j < i → docs[j]? = some d' → docMatches d' target = false)
    (hid : hasKey fs "_id" = false) :
    updateFirst docs target fs = .ok (1, docs.set i (applySet d fs)) := by
  induction docs generalizing i with
  | nil => simp at hi
  | cons d0 rest ih =>
    cases i with
    | zero =>
      simp only [List.getElem?_cons_zero, Option.some_inj] at hi
      subst hi
      simp [updateFirst, hmatch, hid]
    | succ i' =>
      have h0 : docMatches d0 target = false :=
        hbefore 0 d0 (Nat.succ_pos _) (by simp)
      simp only [List.getElem?_cons_succ] at hi
      have hrec := ih i' hi
        (fun j d' hj hd' => hbefore (j + 1) d' (by omega) (by simpa using hd'))
      simp [updateFirst, h0, hrec]

/-! Helper lemmas about the handlers. -/

theorem getUsers_ok (db : DB) (hne : db.users ≠ []) :
    GetUsers db none = ⟨200, .arr (db.users.map docToJson)⟩ := by
  cases hu : db.users with
  | nil => exact absurd hu hne
  | cons d rest => simp [GetUsers, hu]

theorem applyOp_id_preserved (db : DB) (op : Op) (j : Nat) (d0 : Doc)
    (h : db.users[j]? = some d0) :
    ∃ d1, (applyOp db op).users[j]? = some d1 ∧
      lookupField d1 "_id" = lookupField d0 "_id" := by
  cases op with
  | listOp findErr => exact ⟨d0, h, rfl⟩
  | createOp body fresh insertErr =>
    have hlt : j < db.users.length := (List.getElem?_eq_some_iff.mp h).1
    cases hb : bindUser body with
    | error e => exact ⟨d0, by simp [applyOp, CreateUser, hb, h], rfl⟩
    | ok u =>
      cases insertErr with
      | some m => exact ⟨d0, by simp [applyOp, CreateUser, hb, h], rfl⟩
      | none =>
        refine ⟨d0, ?_, rfl⟩
        have hres : (applyOp db (.createOp body fresh none)).users
            = db.users ++ [userToDoc { u with Id := fresh }] := by
          simp [applyOp, CreateUser, hb]
        rw [hres, List.getElem?_append_left hlt]
        exact h
  | updateOp id body updateErr =>
    cases hid : ObjectIDFromHex id with
    | none => exact ⟨d0, by simp [applyOp, UpdateUser, hid, h], rfl⟩
    | some objId =>
      cases body with
      | null => exact ⟨d0, by simp [applyOp, UpdateUser, hid, h], rfl⟩
      | bool b => exact ⟨d0, by simp [applyOp, UpdateUser, hid, h], rfl⟩
      | num n => exact ⟨d0, by simp [applyOp, UpdateUser, hid, h], rfl⟩
      | str s => exact ⟨d0, by simp [applyOp, UpdateUser, hid, h], rfl⟩
      | arr xs => exact ⟨d0, by simp [applyOp, UpdateUser, hid, h], rfl⟩
      | obj updatedData =>
        cases updateErr with
        | some m => exact ⟨d0, by simp [applyOp, UpdateUser, hid, h], rfl⟩
        | none =>
          cases hrec : updateFirst db.users objId updatedData with
          | error m => exact ⟨d0, by simp [applyOp, UpdateUser, hid, hrec, h], rfl⟩
          | ok p =>
            obtain ⟨matched, users'⟩ := p
            have hres : (applyOp db (.updateOp id (.obj updatedData) none)).users = users' := by
              by_cases hm : matched = 0 <;> simp [applyOp, UpdateUser, hid, hrec, hm]
            rw [hres]
            exact updateFirst_id_preserved db.users objId updatedData matched users' hrec j d0 h

/-! Claim theorems. -/

/-- C1: for every create request whose body deserializes into the user
shape, the stored document's identifier is the freshly generated one —
`user.Id = primitive.NewObjectID()` runs after binding and before the
insert, overriding any client-supplied `_id` — so, as long as the freshly
generated identifier differs from the identifier carried by the request
body (the generator's uniqueness guarantee), the stored identifier differs
from the client-supplied one. -/
theorem createUser_overrides_client_id (db : DB) (body : Json) (fresh : ObjectID)
    (u : User) (hbind : bindUser body = .ok u) :
    (CreateUser db body fresh none).2.users
        = db.users ++ [userToDoc { u with Id := fresh }] ∧
    lookupField (userToDoc { u with Id := fresh }) "_id" = some (.oid fresh) ∧
    ∀ (fields : List (String × Json)) (s : String) (i : ObjectID),
      body = .obj fields → lookupJson fields "_id" = some (.str s) →
      ObjectIDFromHex s = some i → fresh ≠ i →
      lookupField (userToDoc { u with Id := fresh }) "_id" ≠ some (.oid i) := by
  refine ⟨by simp [CreateUser, hbind], by simp [userToDoc, lookupField], ?_⟩
  intro fields s i hb hlook hparse hne
  simp only [userToDoc, lookupField, if_pos rfl]
  intro hcontra
  exact hne (BVal.oid.inj (Option.some.inj hcontra))

/-- C3: for every update request whose path identifier does not parse as an
ObjectID, the handler answers 400 with the fixed message "Invalid user ID"
and the store is untouched — for every body, well-formed or not, and even
when the store would fail, since the identifier check precedes both the
body bind and the store call. -/
theorem updateUser_invalid_id_400 (db : DB) (idStr : String) (body : Json)
    (updateErr : Option String) (h : ObjectIDFromHex idStr = none) :
    UpdateUser db idStr body updateErr
      = (⟨400, .obj [("error", .str "Invalid user ID")]⟩, db) := by
  simp [UpdateUser, h]

/-- C4: for every update request with a well-formed identifier that matches
no stored document, a deserializable body and a reachable store, the handler
answers 404 with the fixed message "User not found" and the collection is
unchanged — no document is created (no upsert). -/
theorem updateUser_not_found_404 (db : DB) (idStr : String) (objId : ObjectID)
    (fields : List (String × Json))
    (hid : ObjectIDFromHex idStr = some objId)
    (hnone : ∀ d ∈ db.users, docMatches d objId = false) :
    UpdateUser db idStr (.obj fields) none
      = (⟨404, .obj [("message", .str "User not found")]⟩, db) := by
  simp [UpdateUser, hid, updateFirst_no_match db.users objId fields hnone]

/-- C5: contrary to the claim, listing an empty collection yields 200 with
the JSON value null, not an empty array: `var users []bson.M` stays a nil
slice when `cursor.All` decodes zero documents, and Go's encoding/json
marshals a nil slice as null. -/
theorem getUsers_empty_returns_null :
    GetUsers ⟨[]⟩ none = ⟨200, Json.null⟩ ∧ Json.null ≠ Json.arr [] :=
  ⟨rfl, fun hcontra => Json.noConfusion hcontra⟩

/-- C6: the create error taxonomy is exhaustive and ordered: a body that
fails to bind yields 400 carrying the bind failure's message with the store
untouched; a body that binds but whose insert fails at the store yields 500
carrying the store's message; otherwise the handler answers 200, and no
status other than these three is ever produced. -/
theorem createUser_error_taxonomy (db : DB) (body : Json) (fresh : ObjectID)
    (insertErr : Option String) :
    (∀ e, bindUser body = .error e →
      CreateUser db body fresh insertErr = (⟨400, .obj [("error", .str e)]⟩, db)) ∧
    (∀ u, bindUser body = .ok u → ∀ m, insertErr = some m →
      CreateUser db body fresh insertErr = (⟨500, .obj [("error", .str m)]⟩, db)) ∧
    (∀ u, bindUser body = .ok u → insertErr = none →
      (CreateUser db body fresh insertErr).1.status = 200) ∧
    ((CreateUser db body fresh insertErr).1.status = 200 ∨
     (CreateUser db body fresh insertErr).1.status = 400 ∨
     (CreateUser db body fresh insertErr).1.status = 500) := by
  refine ⟨?_, ?_, ?_, ?_⟩
  · intro e he
    simp [CreateUser, he]
  · intro u hu m hm
    simp [CreateUser, hu, hm]
  · intro u hu hnone
    simp [CreateUser, hu, hnone]
  · cases hb : bindUser body with
    | error e => right; left; simp [CreateUser, hb]
    | ok u =>
      cases insertErr with
      | some m => right; right; simp [CreateUser, hb]
      | none => left; simp [CreateUser, hb]

/-- C8: for every create request that binds successfully and whose insert
succeeds, the response is 200 with the inserted identifier (as its hex
string) under insertedID and the success message, and that insertedID is
exactly the identifier the stored document carries under `_id`. -/
theorem createUser_success_response (db : DB) (body : Json) (fresh : ObjectID)
    (u : User) (hbind : bindUser body = .ok u) :
    CreateUser db body fresh none
      = (⟨200, .obj [("insertedID", .str (oidToHex fresh)),
                     ("message", .str "User created successfully")]⟩,
         ⟨db.users ++ [userToDoc { u with Id := fresh }]⟩) ∧
    lookupField (userToDoc { u with Id := fresh }) "_id" = some (.oid fresh) := by
  constructor
  · simp [CreateUser, hbind]
  · simp [userToDoc, lookupField]

/-- C2: for every update request with a valid identifier whose first match
in the collection is the document at position i, a body that is a JSON
object with distinct keys none of which is `_id`, and a reachable store,
the call answers 200 and performs a partial merge: exactly the fields
present in the body are set on that document (with the body's values),
every other field of that document keeps its value, and every other
document of the collection is unchanged. -/
theorem updateUser_partial_merge (db : DB) (idStr : String) (objId : ObjectID)
    (fields : List (String × Json)) (i : Nat) (d : Doc)
    (hid : ObjectIDFromHex idStr = some objId)
    (hi : db.users[i]? = some d)
    (hmatch : docMatches d objId = true)
    (hfirst : ∀ j d', j < i → db.users[j]? = some d' → docMatches d' objId = false)
    (hnoid : hasKey fields "_id" = false)
    (hnd : (fields.map Prod.fst).Nodup) :
    (UpdateUser db idStr (.obj fields) none).1
        = ⟨200, .obj [("message", .str "User updated successfully")]⟩ ∧
    (UpdateUser db idStr (.obj fields) none).2.users[i]? = some (applySet d fields) ∧
    (∀ k v, (k, v) ∈ fields → lookupField (applySet d fields) k = some (toBVal v)) ∧
    (∀ k, lookupJson fields k = none →
      lookupField (applySet d fields) k = lookupField d k) ∧
    (∀ j, j ≠ i → (UpdateUser db idStr (.obj fields) none).2.users[j]? = db.users[j]?) := by
  have hu := updateFirst_match db.users objId fields i d hi hmatch hfirst hnoid
  have hlt : i < db.users.length := (List.getElem?_eq_some_iff.mp hi).1
  have hres : UpdateUser db idStr (.obj fields) none
      = (⟨200, .obj [("message", .str "User updated successfully")]⟩,
         ⟨db.users.set i (applySet d fields)⟩) := by
    simp [UpdateUser, hid, hu]
  refine ⟨by rw [hres], ?_, ?_, ?_, ?_⟩
  · rw [hres]
    exact List.getElem?_set_self hlt
  · intro k v hkv
    exact lookupField_applySet_mem fields d k v hnd hkv
  · intro k hk
    exact lookupField_applySet_not_mem fields d k hk
  · intro j hj
    rw [hres]
    exact List.getElem?_set_ne (fun e => hj e.symm)

/-- C7: for every valid user-shaped body, create followed by list answers a
JSON array that contains a document object whose `_id` field is exactly the
hex identifier returned in the create response's insertedID field. -/
theorem create_then_list_round_trip (db : DB) (body : Json) (fresh : ObjectID)
    (u : User) (hbind : bindUser body = .ok u) :
    (CreateUser db body fresh none).1.body
        = .obj [("insertedID", .str (oidToHex fresh)),
                ("message", .str "User created successfully")] ∧
    ∃ elems, GetUsers (CreateUser db body fresh none).2 none = ⟨200, .arr elems⟩ ∧
      ∃ fields, Json.obj fields ∈ elems ∧
        lookupJson fields "_id" = some (.str (oidToHex fresh)) := by
  have hdb : (CreateUser db body fresh none).2.users
      = db.users ++ [userToDoc { u with Id := fresh }] := by
    simp [CreateUser, hbind]
  refine ⟨by simp [CreateUser, hbind], ?_⟩
  refine ⟨(CreateUser db body fresh none).2.users.map docToJson, ?_, ?_⟩
  · exact getUsers_ok _ (by simp [hdb])
  · refine ⟨bvalFieldsToJson (userToDoc { u with Id := fresh }), ?_, ?_⟩
    · have hmem : userToDoc { u with Id := fresh } ∈ (CreateUser db body fresh none).2.users := by
        rw [hdb]
        exact List.mem_append_right _ (by simp)
      exact List.mem_map_of_mem docToJson hmem
    · simp [userToDoc, bvalFieldsToJson, bvalToJson, lookupJson]

/-- C9: a stored document's identifier is immutable: after any sequence of
list, create and update requests — including updates whose body carries an
`_id` field, which the store rejects — the document at each position of the
collection still holds the same `_id` it held before. -/
theorem applyOps_id_immutable (ops : List Op) (db : DB) (j : Nat) (d0 : Doc)
    (h : db.users[j]? = some d0) :
    ∃ d1, (applyOps db ops).users[j]? = some d1 ∧
      lookupField d1 "_id" = lookupField d0 "_id" := by
  induction ops generalizing db d0 with
  | nil => exact ⟨d0, h, rfl⟩
  | cons op rest ih =>
    obtain ⟨d1, h1, e1⟩ := applyOp_id_preserved db op j d0 h
    obtain ⟨d2, h2, e2⟩ := ih (applyOp db op) d1 h1
    exact ⟨d2, by simpa [applyOps] using h2, e2.trans e1⟩

/-- C10: for every create request that binds, the stored document carries
only fields of the fixed User schema plus the generated identifier — every
key of the inserted document is `_id`, `name` or `email`, and any other
request-body key is dropped, never persisted. -/
theorem createUser_schema_only (db : DB) (body : Json) (fresh : ObjectID)
    (u : User) (hbind : bindUser body = .ok u) :
    (CreateUser db body fresh none).2.users
        = db.users ++ [userToDoc { u with Id := fresh }] ∧
    (∀ k, k ∈ (userToDoc { u with Id := fresh }).map Prod.fst →
      k = "_id" ∨ k = "name" ∨ k = "email") ∧
    (∀ k, k ≠ "_id" → k ≠ "name" → k ≠ "email" →
      lookupField (userToDoc { u with Id := fresh }) k = none) := by
  refine ⟨by simp [CreateUser, hbind], ?_, ?_⟩
  · intro k hk
    cases he : u.email <;> simp [userToDoc, he] at hk <;> tauto
  · intro k h1 h2 h3
    cases he : u.email <;>
      simp [userToDoc, lookupField, he, Ne.symm h1, Ne.symm h2, Ne.symm h3]

/-! Witnesses: each hypothesis-bearing claim theorem applied at a concrete
input. -/

/-- C1 witness: with stored collection empty, a body carrying `_id`
"000000000000000000000002" and generated identifier 1, the stored
identifier is the generated one. -/
theorem createUser_overrides_client_id_witness :
    lookupField (userToDoc { (⟨⟨2⟩, "eve", none⟩ : User) with Id := ⟨1⟩ }) "_id"
      = some (.oid ⟨1⟩) :=
  (createUser_overrides_client_id ⟨[]⟩
      (.obj [("_id", .str "000000000000000000000002"), ("name", .str "eve")])
      ⟨1⟩ ⟨⟨2⟩, "eve", none⟩ rfl).2.1

/-- C2 witness: updating the document with identifier 3 with body
setting only name changes name and keeps age. -/
theorem updateUser_partial_merge_witness :
    lookupField (applySet [("_id", BVal.oid ⟨3⟩), ("name", BVal.str "a"), ("age", BVal.num 7)]
        [("name", Json.str "X")]) "name" = some (BVal.str "X") ∧
    lookupField (applySet [("_id", BVal.oid ⟨3⟩), ("name", BVal.str "a"), ("age", BVal.num 7)]
        [("name", Json.str "X")]) "age"
      = lookupField [("_id", BVal.oid ⟨3⟩), ("name", BVal.str "a"), ("age", BVal.num 7)] "age" := by
  have h := updateUser_partial_merge
    ⟨[[("_id", BVal.oid ⟨3⟩), ("name", BVal.str "a"), ("age", BVal.num 7)]]⟩
    "000000000000000000000003" ⟨3⟩ [("name", Json.str "X")] 0
    [("_id", BVal.oid ⟨3⟩), ("name", BVal.str "a"), ("age", BVal.num 7)]
    (by decide) rfl (by decide)
    (fun j d' hj _ => absurd hj (Nat.not_lt_zero j)) (by decide) (by simp)
  exact ⟨h.2.2.1 "name" (Json.str "X") (by simp), h.2.2.2.1 "age" rfl⟩

/-- C3 witness: PATCH with path identifier "not-an-id" and a malformed body
answers 400 "Invalid user ID" with the store untouched, even were the store
down. -/
theorem updateUser_invalid_id_400_witness :
    UpdateUser ⟨[]⟩ "not-an-id" (Json.num 3) (some "store down")
      = (⟨400, .obj [("error", .str "Invalid user ID")]⟩, ⟨[]⟩) :=
  updateUser_invalid_id_400 ⟨[]⟩ "not-an-id" (Json.num 3) (some "store down") (by decide)

/-- C4 witness: a well-formed identifier (1) matching no stored document
(the store holds only identifier 5) answers 404 and changes nothing. -/
theorem updateUser_not_found_404_witness :
    UpdateUser ⟨[[("_id", BVal.oid ⟨5⟩), ("name", BVal.str "a")]]⟩
        "000000000000000000000001" (Json.obj [("name", Json.str "b")]) none
      = (⟨404, .obj [("message", .str "User not found")]⟩,
         ⟨[[("_id", BVal.oid ⟨5⟩), ("name", BVal.str "a")]]⟩) :=
  updateUser_not_found_404 ⟨[[("_id", BVal.oid ⟨5⟩), ("name", BVal.str "a")]]⟩
    "000000000000000000000001" ⟨1⟩ [("name", Json.str "b")] (by decide) (by decide)

/-- C6 witness: a body that is not a JSON object answers 400 carrying the
bind failure's message, with the store untouched. -/
theorem createUser_error_taxonomy_witness :
    CreateUser ⟨[]⟩ (Json.num 3) ⟨1⟩ none
      = (⟨400, .obj [("error",
          .str "json: cannot unmarshal value into value of type models.User")]⟩, ⟨[]⟩) :=
  (createUser_error_taxonomy ⟨[]⟩ (Json.num 3) ⟨1⟩ none).1 _ rfl

/-- C7 witness: creating user "bob" with generated identifier 7 in an empty
store, then listing, yields an array containing a document whose `_id` is
the returned insertedID hex string. -/
theorem create_then_list_round_trip_witness :
    (CreateUser ⟨[]⟩ (Json.obj [("name", Json.str "bob")]) ⟨7⟩ none).1.body
        = .obj [("insertedID", .str (oidToHex ⟨7⟩)),
                ("message", .str "User created successfully")] ∧
    ∃ elems, GetUsers (CreateUser ⟨[]⟩ (Json.obj [("name", Json.str "bob")]) ⟨7⟩ none).2 none
        = ⟨200, .arr elems⟩ ∧
      ∃ fields, Json.obj fields ∈ elems ∧
        lookupJson fields "_id" = some (.str (oidToHex ⟨7⟩)) :=
  create_then_list_round_trip ⟨[]⟩ (Json.obj [("name", Json.str "bob")]) ⟨7⟩
    ⟨⟨0⟩, "bob", none⟩ rfl

/-- C8 witness: creating user "bob" with generated identifier 7 answers 200
with that identifier's hex string as insertedID, equal to the stored
document's identifier. -/
theorem createUser_success_response_witness :
    CreateUser ⟨[]⟩ (Json.obj [("name", Json.str "bob")]) ⟨7⟩ none
      = (⟨200, .obj [("insertedID", .str (oidToHex ⟨7⟩)),
                     ("message", .str "User created successfully")]⟩,
         ⟨[userToDoc { (⟨⟨0⟩, "bob", none⟩ : User) with Id := ⟨7⟩ }]⟩) ∧
    lookupField (userToDoc { (⟨⟨0⟩, "bob", none⟩ : User) with Id := ⟨7⟩ }) "_id"
      = some (.oid ⟨7⟩) :=
  createUser_success_response ⟨[]⟩ (Json.obj [("name", Json.str "bob")]) ⟨7⟩
    ⟨⟨0⟩, "bob", none⟩ rfl

/-- C9 witness: after an update that tries to set `_id` (rejected by the
store) and a create, the first document still holds identifier 1. -/
theorem applyOps_id_immutable_witness :
    ∃ d1, (applyOps ⟨[[("_id", BVal.oid ⟨1⟩), ("name", BVal.str "a")]]⟩
        [Op.updateOp "000000000000000000000001"
            (Json.obj [("_id", Json.str "000000000000000000000002"),
                       ("name", Json.str "b")]) none,
         Op.createOp (Json.obj [("name", Json.str "c")]) ⟨9⟩ none,
         Op.listOp none]).users[0]? = some d1 ∧
      lookupField d1 "_id"
        = lookupField [("_id", BVal.oid ⟨1⟩), ("name", BVal.str "a")] "_id" :=
  applyOps_id_immutable
    [Op.updateOp "000000000000000000000001"
        (Json.obj [("_id", Json.str "000000000000000000000002"),
                   ("name", Json.str "b")]) none,
     Op.createOp (Json.obj [("name", Json.str "c")]) ⟨9⟩ none,
     Op.listOp none]
    ⟨[[("_id", BVal.oid ⟨1⟩), ("name", BVal.str "a")]]⟩ 0
    [("_id", BVal.oid ⟨1⟩), ("name", BVal.str "a")] rfl

/-- C10 witness: a create body carrying the unknown field "hobby" binds,
and the stored document holds no "hobby" field. -/
theorem createUser_schema_only_witness :
    lookupField (userToDoc { (⟨⟨0⟩, "ann", none⟩ : User) with Id := ⟨4⟩ }) "hobby" = none :=
  (createUser_schema_only ⟨[]⟩
      (Json.obj [("name", Json.str "ann"), ("hobby", Json.str "chess")]) ⟨4⟩
      ⟨⟨0⟩, "ann", none⟩ rfl).2.2 "hobby" (by decide) (by decide) (by decide)
